import Mathlib

/-!
Shallow embedding of the stencil-upload core of GPU/GLES/StencilBufferGLES.cpp:
the three bit-plane scanners (StencilBits5551 / StencilBits4444 / StencilBits8888)
and FramebufferManagerGLES::NotifyStencilUpload.  Guest memory is modelled as a
function from 32-bit-word index to the word stored there (reads are masked to
32 bits, as a u32 load is).  The GL side effects of NotifyStencilUpload are
modelled as an explicit trace of the calls it issues, in program order, so that
statements such as "no target state is modified" (empty trace) or "one draw per
active bit-plane" (trace filters) can be made precise.
-/

/-- GEBufferFormat from GPU/ge_constants.h: the five guest framebuffer formats. -/
inductive GEBufferFormat where
  | GE_FORMAT_565
  | GE_FORMAT_5551
  | GE_FORMAT_4444
  | GE_FORMAT_8888
  | GE_FORMAT_INVALID
  deriving DecidableEq, Repr

/-- The fields of VirtualFramebuffer that NotifyStencilUpload reads.  fbo is
whether the render target has a backing FBO (dstBuffer->fbo non-null). -/
structure VirtualFramebuffer where
  fb_address : Nat
  fb_stride : Nat
  bufferHeight : Nat
  format : GEBufferFormat
  bufferWidth : Nat
  renderWidth : Nat
  renderHeight : Nat
  width : Nat
  height : Nat
  fbo : Bool
  deriving DecidableEq, Repr

/-- A u32 load from word index i of the source pixel memory: the stored value
truncated to 32 bits. -/
def word32 (ptr : Nat → Nat) (i : Nat) : Nat :=
  ptr i &&& 0xFFFFFFFF

/-- The loop of StencilBits5551: scan n words starting at index i; return 1 as
soon as a word with a bit of 0x80008000 set is found, else 0. -/
def stencilLoop5551 (ptr : Nat → Nat) (i : Nat) : Nat → Nat
  | 0 => 0
  | n + 1 =>
    if word32 ptr i &&& 0x80008000 ≠ 0 then 1
    else stencilLoop5551 ptr (i + 1) n

/-- StencilBits5551: the pixels are 16-bit; two are read per 32-bit word, so
numPixels / 2 words are scanned. -/
def StencilBits5551 (ptr : Nat → Nat) (numPixels : Nat) : Nat :=
  stencilLoop5551 ptr 0 (numPixels / 2)

/-- The accumulation loop shared by StencilBits4444 and StencilBits8888:
bits |= ptr[i] over n words starting at index i. -/
def orWordsAux (ptr : Nat → Nat) (bits i : Nat) : Nat → Nat
  | 0 => bits
  | n + 1 => orWordsAux ptr (bits ||| word32 ptr i) (i + 1) n

/-- StencilBits4444: OR all numPixels / 2 words, then merge the two packed
alpha nibbles (bits 12-15 and bits 28-31) into one 4-bit value. -/
def StencilBits4444 (ptr : Nat → Nat) (numPixels : Nat) : Nat :=
  let bits := orWordsAux ptr 0 0 (numPixels / 2)
  ((bits >>> 12) &&& 0xF) ||| (bits >>> 28)

/-- StencilBits8888: OR all numPixels 32-bit pixels, then take the top (alpha)
byte. -/
def StencilBits8888 (ptr : Nat → Nat) (numPixels : Nat) : Nat :=
  (orWordsAux ptr 0 0 numPixels) >>> 24

/-- The k-th 16-bit pixel of the word stream: even pixels are the low half of
word k / 2, odd pixels the high half (little-endian layout). -/
def pixel16 (ptr : Nat → Nat) (k : Nat) : Nat :=
  if k % 2 = 0 then word32 ptr (k / 2) &&& 0xFFFF
  else word32 ptr (k / 2) >>> 16

/-- The 4-bit alpha nibble (top 4 bits) of the k-th 16-bit pixel. -/
def nibble4444 (ptr : Nat → Nat) (k : Nat) : Nat :=
  pixel16 ptr k >>> 12

/-- The 8-bit alpha byte (top byte) of the k-th 32-bit pixel. -/
def alpha8888 (ptr : Nat → Nat) (k : Nat) : Nat :=
  word32 ptr k >>> 24

/-- Bitwise OR of all elements of a list. -/
def listOr (l : List Nat) : Nat :=
  l.foldr (· ||| ·) 0

theorem word32_lt (ptr : Nat → Nat) (i : Nat) : word32 ptr i < 2 ^ 32 :=
  Nat.lt_of_le_of_lt Nat.and_le_right (by norm_num)

theorem orWordsAux_lt (ptr : Nat → Nat) (n : Nat) : ∀ bits i, bits < 2 ^ 32 →
    orWordsAux ptr bits i n < 2 ^ 32 := by
  induction n with
  | zero => intro bits i h; simpa [orWordsAux] using h
  | succ n ih =>
    intro bits i h
    rw [orWordsAux]
    exact ih _ _ (Nat.or_lt_two_pow h (word32_lt ptr i))

theorem orWordsAux_eq_or (ptr : Nat → Nat) (n : Nat) : ∀ bits i,
    orWordsAux ptr bits i n = bits ||| orWordsAux ptr 0 i n := by
  induction n with
  | zero => intro bits i; simp [orWordsAux]
  | succ n ih =>
    intro bits i
    rw [orWordsAux, orWordsAux, ih (bits ||| word32 ptr i), ih (0 ||| word32 ptr i)]
    simp [Nat.or_assoc]

theorem testBit_orWordsAux (ptr : Nat → Nat) (n : Nat) : ∀ i b,
    (orWordsAux ptr 0 i n).testBit b = true ↔
      ∃ j, j < n ∧ (word32 ptr (i + j)).testBit b = true := by
  induction n with
  | zero => intro i b; simp [orWordsAux]
  | succ n ih =>
    intro i b
    rw [orWordsAux, orWordsAux_eq_or]
    simp only [Nat.zero_or, Nat.testBit_or, Bool.or_eq_true, ih]
    constructor
    · rintro (h | ⟨j, hj, h⟩)
      · exact ⟨0, Nat.succ_pos n, by simpa using h⟩
      · exact ⟨j + 1, by omega, by rw [show i + (j + 1) = i + 1 + j by omega]; exact h⟩
    · rintro ⟨j, hj, h⟩
      match j with
      | 0 => exact Or.inl (by simpa using h)
      | j + 1 =>
        exact Or.inr ⟨j, by omega, by rw [show i + 1 + j = i + (j + 1) by omega]; exact h⟩

theorem testBit_listOr (l : List Nat) (b : Nat) :
    (listOr l).testBit b = true ↔ ∃ x ∈ l, x.testBit b = true := by
  induction l with
  | nil => simp [listOr]
  | cons x xs ih =>
    simp only [listOr, List.foldr_cons, Nat.testBit_or, Bool.or_eq_true, List.mem_cons]
    rw [show List.foldr (· ||| ·) 0 xs = listOr xs from rfl, ih]
    constructor
    · rintro (h | ⟨y, hy, h⟩)
      · exact ⟨x, Or.inl rfl, h⟩
      · exact ⟨y, Or.inr hy, h⟩
    · rintro ⟨y, hy | hy, h⟩
      · exact Or.inl (hy ▸ h)
      · exact Or.inr ⟨y, hy, h⟩

theorem eq_zero_iff_forall_testBit (x : Nat) :
    x = 0 ↔ ∀ b, x.testBit b = false := by
  constructor
  · rintro rfl b; simp
  · intro h
    exact Nat.eq_of_testBit_eq fun b => by simp [h b]

theorem bool_eq_of_iff {x y : Bool} (h : x = true ↔ y = true) : x = y := by
  cases x <;> cases y <;> simp_all

theorem and_ne_zero_iff (x y : Nat) :
    x &&& y ≠ 0 ↔ ∃ b, x.testBit b = true ∧ y.testBit b = true := by
  rw [ne_eq, eq_zero_iff_forall_testBit]
  push_neg
  simp [Nat.testBit_and]

theorem and_mask5551_ne_zero (x : Nat) :
    x &&& 0x80008000 ≠ 0 ↔ x.testBit 15 = true ∨ x.testBit 31 = true := by
  rw [and_ne_zero_iff]
  have hm : (0x80008000 : Nat) = 2 ^ 15 ||| 2 ^ 31 := by decide
  constructor
  · rintro ⟨b, hx, hb⟩
    rw [hm, Nat.testBit_or, Bool.or_eq_true, Nat.testBit_two_pow, Nat.testBit_two_pow] at hb
    rcases hb with hb | hb
    · exact Or.inl (by rwa [← of_decide_eq_true hb] at hx)
    · exact Or.inr (by rwa [← of_decide_eq_true hb] at hx)
  · rintro (h | h)
    · exact ⟨15, h, by rw [hm]; decide⟩
    · exact ⟨31, h, by rw [hm]; decide⟩

theorem and_two_pow_ne_zero (u b : Nat) :
    u &&& 2 ^ b ≠ 0 ↔ u.testBit b = true := by
  rw [and_ne_zero_iff]
  constructor
  · rintro ⟨c, hu, hc⟩
    rw [Nat.testBit_two_pow] at hc
    rwa [of_decide_eq_true hc]
  · intro h
    exact ⟨b, h, by rw [Nat.testBit_two_pow]; simp⟩

theorem stencilLoop5551_eq_one (ptr : Nat → Nat) (n : Nat) : ∀ i,
    stencilLoop5551 ptr i n = 1 ↔
      ∃ j, j < n ∧ word32 ptr (i + j) &&& 0x80008000 ≠ 0 := by
  induction n with
  | zero => intro i; simp [stencilLoop5551]
  | succ n ih =>
    intro i
    rw [stencilLoop5551]
    by_cases h : word32 ptr i &&& 0x80008000 ≠ 0
    · rw [if_pos h]
      exact iff_of_true rfl ⟨0, Nat.succ_pos n, by simpa using h⟩
    · rw [if_neg h, ih (i + 1)]
      constructor
      · rintro ⟨j, hj, hh⟩
        exact ⟨j + 1, by omega, by rw [show i + (j + 1) = i + 1 + j by omega]; exact hh⟩
      · rintro ⟨j, hj, hh⟩
        match j with
        | 0 => exact absurd (by simpa using hh) h
        | j + 1 =>
          exact ⟨j, by omega, by rw [show i + 1 + j = i + (j + 1) by omega]; exact hh⟩

theorem stencilLoop5551_zero_or_one (ptr : Nat → Nat) (n : Nat) : ∀ i,
    stencilLoop5551 ptr i n = 0 ∨ stencilLoop5551 ptr i n = 1 := by
  induction n with
  | zero => intro i; exact Or.inl rfl
  | succ n ih =>
    intro i
    rw [stencilLoop5551]
    by_cases h : word32 ptr i &&& 0x80008000 ≠ 0
    · rw [if_pos h]; exact Or.inr rfl
    · rw [if_neg h]; exact ih (i + 1)

theorem pixel16_testBit15 (ptr : Nat → Nat) (k : Nat) :
    (pixel16 ptr k).testBit 15 =
      if k % 2 = 0 then (word32 ptr (k / 2)).testBit 15
      else (word32 ptr (k / 2)).testBit 31 := by
  unfold pixel16
  split
  · rw [Nat.testBit_and]
    have h : (0xFFFF : Nat).testBit 15 = true := by decide
    simp [h]
  · rw [Nat.testBit_shiftRight]

theorem wordHit_iff_pixelHit (ptr : Nat → Nat) (n : Nat) (hev : n % 2 = 0) :
    (∃ j, j < n / 2 ∧ word32 ptr j &&& 0x80008000 ≠ 0) ↔
      (∃ k, k < n ∧ (pixel16 ptr k).testBit 15 = true) := by
  constructor
  · rintro ⟨j, hj, hw⟩
    rcases (and_mask5551_ne_zero _).1 hw with h | h
    · refine ⟨2 * j, by omega, ?_⟩
      rw [pixel16_testBit15, if_pos (by omega), show 2 * j / 2 = j by omega]
      exact h
    · refine ⟨2 * j + 1, by omega, ?_⟩
      rw [pixel16_testBit15, if_neg (by omega), show (2 * j + 1) / 2 = j by omega]
      exact h
  · rintro ⟨k, hk, hp⟩
    refine ⟨k / 2, by omega, (and_mask5551_ne_zero _).2 ?_⟩
    rw [pixel16_testBit15] at hp
    by_cases h2 : k % 2 = 0
    · rw [if_pos h2] at hp; exact Or.inl hp
    · rw [if_neg h2] at hp; exact Or.inr hp

theorem exists_pixel_split (n : Nat) (hev : n % 2 = 0) (P : Nat → Prop) :
    (∃ k, k < n ∧ P k) ↔
      (∃ j, j < n / 2 ∧ P (2 * j)) ∨ (∃ j, j < n / 2 ∧ P (2 * j + 1)) := by
  constructor
  · rintro ⟨k, hk, h⟩
    by_cases h2 : k % 2 = 0
    · exact Or.inl ⟨k / 2, by omega, by rw [show 2 * (k / 2) = k by omega]; exact h⟩
    · exact Or.inr ⟨k / 2, by omega, by rw [show 2 * (k / 2) + 1 = k by omega]; exact h⟩
  · rintro (⟨j, hj, h⟩ | ⟨j, hj, h⟩)
    · exact ⟨2 * j, by omega, h⟩
    · exact ⟨2 * j + 1, by omega, h⟩

theorem alpha8888_testBit (ptr : Nat → Nat) (k b : Nat) :
    (alpha8888 ptr k).testBit b = (word32 ptr k).testBit (24 + b) := by
  unfold alpha8888
  rw [Nat.testBit_shiftRight]

theorem nibble4444_testBit (ptr : Nat → Nat) (k b : Nat) :
    (nibble4444 ptr k).testBit b =
      if k % 2 = 0 then ((word32 ptr (k / 2)).testBit (12 + b) && decide (b < 4))
      else (word32 ptr (k / 2)).testBit (28 + b) := by
  unfold nibble4444 pixel16
  split
  · rw [Nat.testBit_shiftRight, Nat.testBit_and,
      show (0xFFFF : Nat) = 2 ^ 16 - 1 by norm_num, Nat.testBit_two_pow_sub_one]
    congr 1
    rw [decide_eq_decide]
    omega
  · rw [Nat.testBit_shiftRight, Nat.testBit_shiftRight,
      show 16 + (12 + b) = 28 + b by omega]

/-- C2: for the 8888 format and an even pixel count, the scanner result is the
bitwise OR of the alpha (top) byte of every 32-bit pixel in the region; bit b
of the result is set iff some pixel has alpha bit b set, and the result is 0
iff every pixel's alpha byte is 0. -/
theorem stencilBits8888_spec (ptr : Nat → Nat) (numPixels : Nat)
    (hev : numPixels % 2 = 0) :
    StencilBits8888 ptr numPixels = listOr ((List.range numPixels).map (alpha8888 ptr))
    ∧ (∀ b, (StencilBits8888 ptr numPixels).testBit b = true ↔
        ∃ k, k < numPixels ∧ (alpha8888 ptr k).testBit b = true)
    ∧ (StencilBits8888 ptr numPixels = 0 ↔
        ∀ k, k < numPixels → alpha8888 ptr k = 0) := by
  have hbit : ∀ b, (StencilBits8888 ptr numPixels).testBit b = true ↔
      ∃ k, k < numPixels ∧ (alpha8888 ptr k).testBit b = true := by
    intro b
    unfold StencilBits8888
    rw [Nat.testBit_shiftRight, testBit_orWordsAux]
    constructor
    · rintro ⟨j, hj, h⟩
      exact ⟨j, hj, by rw [alpha8888_testBit]; simpa using h⟩
    · rintro ⟨k, hk, h⟩
      rw [alpha8888_testBit] at h
      exact ⟨k, hk, by simpa using h⟩
  refine ⟨?_, hbit, ?_⟩
  · apply Nat.eq_of_testBit_eq
    intro b
    apply bool_eq_of_iff
    rw [hbit b, testBit_listOr]
    simp only [List.mem_map, List.mem_range]
    constructor
    · rintro ⟨k, hk, h⟩
      exact ⟨alpha8888 ptr k, ⟨k, hk, rfl⟩, h⟩
    · rintro ⟨x, ⟨k, hk, rfl⟩, h⟩
      exact ⟨k, hk, h⟩
  · rw [eq_zero_iff_forall_testBit]
    constructor
    · intro h k hk
      rw [eq_zero_iff_forall_testBit]
      intro b
      by_contra hb
      have : (alpha8888 ptr k).testBit b = true := by
        cases hx : (alpha8888 ptr k).testBit b
        · exact absurd hx hb
        · rfl
      have := (hbit b).2 ⟨k, hk, this⟩
      rw [h b] at this
      exact Bool.noConfusion this
    · intro h b
      cases hx : (StencilBits8888 ptr numPixels).testBit b
      · rfl
      · obtain ⟨k, hk, hkb⟩ := (hbit b).1 hx
        rw [h k hk] at hkb
        simp at hkb

/-- C4: for the 4444 format and an even pixel count, the scanner result is the
bitwise OR (union) of the top 4-bit alpha nibble of every 16-bit pixel,
independent of pixel position: bit b of the result is set iff some pixel's
alpha nibble has bit b set. -/
theorem stencilBits4444_spec (ptr : Nat → Nat) (numPixels : Nat)
    (hev : numPixels % 2 = 0) :
    StencilBits4444 ptr numPixels = listOr ((List.range numPixels).map (nibble4444 ptr))
    ∧ (∀ b, (StencilBits4444 ptr numPixels).testBit b = true ↔
        ∃ k, k < numPixels ∧ (nibble4444 ptr k).testBit b = true) := by
  have hbit : ∀ b, (StencilBits4444 ptr numPixels).testBit b = true ↔
      ∃ k, k < numPixels ∧ (nibble4444 ptr k).testBit b = true := by
    intro b
    unfold StencilBits4444
    rw [Nat.testBit_or, Bool.or_eq_true, Nat.testBit_and, Nat.testBit_shiftRight,
      Nat.testBit_shiftRight, show (0xF : Nat) = 2 ^ 4 - 1 by norm_num,
      Nat.testBit_two_pow_sub_one, Bool.and_eq_true, testBit_orWordsAux,
      testBit_orWordsAux]
    rw [exists_pixel_split numPixels hev]
    constructor
    · rintro (⟨⟨j, hj, h⟩, hb4⟩ | ⟨j, hj, h⟩)
      · refine Or.inl ⟨j, hj, ?_⟩
        rw [nibble4444_testBit, if_pos (by omega), show 2 * j / 2 = j by omega]
        simp only [Bool.and_eq_true]
        exact ⟨by simpa using h, hb4⟩
      · refine Or.inr ⟨j, hj, ?_⟩
        rw [nibble4444_testBit, if_neg (by omega), show (2 * j + 1) / 2 = j by omega]
        simpa using h
    · rintro (⟨j, hj, h⟩ | ⟨j, hj, h⟩)
      · rw [nibble4444_testBit, if_pos (by omega), show 2 * j / 2 = j by omega,
          Bool.and_eq_true] at h
        exact Or.inl ⟨⟨j, hj, by simpa using h.1⟩, h.2⟩
      · rw [nibble4444_testBit, if_neg (by omega), show (2 * j + 1) / 2 = j by omega] at h
        exact Or.inr ⟨j, hj, by simpa using h⟩
  refine ⟨?_, hbit⟩
  apply Nat.eq_of_testBit_eq
  intro b
  apply bool_eq_of_iff
  rw [hbit b, testBit_listOr]
  simp only [List.mem_map, List.mem_range]
  constructor
  · rintro ⟨k, hk, h⟩
    exact ⟨nibble4444 ptr k, ⟨k, hk, rfl⟩, h⟩
  · rintro ⟨x, ⟨k, hk, rfl⟩, h⟩
    exact ⟨k, hk, h⟩

/-- C3: for the 5551 format and an even pixel count, the scanner returns 1 iff
some 16-bit pixel in the region has bit 15 (the stencil bit) set, and 0
otherwise; moreover the result is determined by the words up to and including
the first word with a hit: any source agreeing with the scanned one on words
0..j, where word j is the first hit, also yields 1, whatever its later words
and extent hold (the loop exits early and never examines them). -/
theorem stencilBits5551_spec (ptr : Nat → Nat) (numPixels : Nat)
    (hev : numPixels % 2 = 0) :
    (StencilBits5551 ptr numPixels = 1 ↔
      ∃ k, k < numPixels ∧ (pixel16 ptr k).testBit 15 = true)
    ∧ (StencilBits5551 ptr numPixels = 0 ↔
      ¬ ∃ k, k < numPixels ∧ (pixel16 ptr k).testBit 15 = true)
    ∧ (∀ ptr2 numPixels2 j, j < numPixels / 2 →
        word32 ptr j &&& 0x80008000 ≠ 0 →
        (∀ k, k < j → word32 ptr k &&& 0x80008000 = 0) →
        (∀ k, k ≤ j → ptr2 k = ptr k) →
        j < numPixels2 / 2 →
        StencilBits5551 ptr2 numPixels2 = 1) := by
  have h1 : StencilBits5551 ptr numPixels = 1 ↔
      ∃ k, k < numPixels ∧ (pixel16 ptr k).testBit 15 = true := by
    unfold StencilBits5551
    rw [stencilLoop5551_eq_one]
    simp only [Nat.zero_add]
    exact wordHit_iff_pixelHit ptr numPixels hev
  refine ⟨h1, ?_, ?_⟩
  · rw [← h1]
    rcases stencilLoop5551_zero_or_one ptr (numPixels / 2) 0 with h | h <;>
      unfold StencilBits5551 <;> rw [h] <;> simp
  · intro ptr2 numPixels2 j hj hhit hfirst hagree hj2
    unfold StencilBits5551
    rw [stencilLoop5551_eq_one]
    refine ⟨j, by simpa using hj2, ?_⟩
    simp only [Nat.zero_add]
    unfold word32 at hhit ⊢
    rw [hagree j le_rfl]
    exact hhit

/-- Source memory with exactly one 8888 pixel (index 2) having alpha 0x20. -/
def ptrC2 : Nat → Nat := fun k => if k = 2 then 0x20000000 else 0

/-- Source word mixing a low 4444 pixel with alpha nibble 0x3 and a high pixel
with alpha nibble 0xC. -/
def ptrC4 : Nat → Nat := fun _ => 0xC0003000

/-- Source word whose low 5551 pixel has its stencil bit (bit 15) set. -/
def ptrC3 : Nat → Nat := fun _ => 0x8000

theorem stencilBits8888_spec_witness :
    4 % 2 = 0
    ∧ StencilBits8888 ptrC2 4 = listOr ((List.range 4).map (alpha8888 ptrC2))
    ∧ StencilBits8888 ptrC2 4 = 0x20 :=
  ⟨by decide, (stencilBits8888_spec ptrC2 4 (by decide)).1, by decide⟩

theorem stencilBits4444_spec_witness :
    2 % 2 = 0
    ∧ StencilBits4444 ptrC4 2 = listOr ((List.range 2).map (nibble4444 ptrC4))
    ∧ StencilBits4444 ptrC4 2 = 0xF :=
  ⟨by decide, (stencilBits4444_spec ptrC4 2 (by decide)).1, by decide⟩

theorem stencilBits5551_spec_witness :
    4 % 2 = 0
    ∧ (StencilBits5551 ptrC3 4 = 0 ↔
        ¬ ∃ k, k < 4 ∧ (pixel16 ptrC3 k).testBit 15 = true)
    ∧ StencilBits5551 ptrC3 4 = 1
    ∧ StencilBits5551 (fun _ => 0) 4 = 0 :=
  ⟨by decide, (stencilBits5551_spec ptrC3 4 (by decide)).2.1, by decide, by decide⟩

/-- One GL-level side effect issued by NotifyStencilUpload, in program order.
compileShader records glsl_create_source and whether it succeeded;
errorLogReport records the ERROR_LOG_REPORT diagnostic; uniformTex records the
glsl_uniform_loc / glUniform1i pair for the tex sampler; clearBufs records
glClear with its stencil / color bits; draw records one DrawActiveTexture call
for bit-plane value i; uniformStencilValue records setting u_stencilValue for
plane i. -/
inductive GLOp where
  | scissorDisable
  | colorMask (r g b a : Bool)
  | clearColor (r g b a : Nat)
  | clearStencil (v : Nat)
  | clearBufs (stencil color : Bool)
  | compileShader (ok : Bool)
  | errorLogReport
  | bindShader
  | uniformTex
  | dirtyLastShader
  | disableState
  | stencilTestEnable
  | stencilOpReplace
  | bindFramebuffer (temp : Bool)
  | viewport (w h : Nat)
  | makePixelTexture
  | forgetLastTexture
  | stencilFuncAlways
  | stencilMask (m : Nat)
  | uniformStencilValue (i : Nat)
  | draw (i : Nat)
  | blit
  | rebindFramebuffer
  deriving DecidableEq, Repr

/-- The outcome of a NotifyStencilUpload call: the returned bool and the trace
of GL calls it issued. -/
structure UploadResult where
  modified : Bool
  trace : List GLOp
  deriving DecidableEq, Repr

/-- The collaborators NotifyStencilUpload consults: MayIntersectFramebuffer,
MaskedEqual, the vfbs_ list, Memory::GetPointer (per address: the 32-bit words
readable there, or none if unmapped), whether stencilUploadProgram_ is already
non-null, whether glsl_create_source would succeed, and whether the GPU
supports framebuffer blit. -/
structure GLEnv where
  mayIntersect : Nat → Bool
  maskedEqual : Nat → Nat → Bool
  vfbs : List VirtualFramebuffer
  mem : Nat → Option (Nat → Nat)
  hasProgram : Bool
  compileOk : Bool
  supportsBlit : Bool

/-- The dstBuffer search loop: every vfb whose fb_address MaskedEqual-matches
addr overwrites dstBuffer, so the last match wins. -/
def resolveDst (env : GLEnv) (addr : Nat) : Option VirtualFramebuffer :=
  env.vfbs.foldl
    (fun acc vfb => if env.maskedEqual vfb.fb_address addr then some vfb else acc)
    none

/-- The usedBits each arm of the format switch computes (565 has returned
already; GE_FORMAT_INVALID leaves usedBits at its initial 0). -/
def scanUsedBits (format : GEBufferFormat) (src : Nat → Nat) (numPixels : Nat) : Nat :=
  match format with
  | .GE_FORMAT_5551 => StencilBits5551 src numPixels
  | .GE_FORMAT_4444 => StencilBits4444 src numPixels
  | .GE_FORMAT_8888 => StencilBits8888 src numPixels
  | _ => 0

/-- The values variable of NotifyStencilUpload: 2 / 16 / 256 by format, left
at its initial 0 for GE_FORMAT_INVALID (and 565, which never reaches it). -/
def formatValueCount : GEBufferFormat → Nat
  | .GE_FORMAT_5551 => 2
  | .GE_FORMAT_4444 => 16
  | .GE_FORMAT_8888 => 256
  | _ => 0

/-- The stencil write mask set for plane i inside the draw loop: (i << 4) | i
for 4444, the constant 0xFF for 5551, and i itself for 8888. -/
def planeMask (format : GEBufferFormat) (i : Nat) : Nat :=
  if format = .GE_FORMAT_4444 then (i <<< 4) ||| i
  else if format = .GE_FORMAT_5551 then 0xFF
  else i

/-- The three GL calls one non-skipped iteration of the draw loop issues. -/
def planeOps (format : GEBufferFormat) (i : Nat) : List GLOp :=
  [.stencilMask (planeMask format i), .uniformStencilValue i, .draw i]

/-- The draw loop: for (int i = 1; i < values; i += i), skipping planes with
usedBits & i == 0.  Totalised with the invariant 0 < i, which the entry point
i = 1 establishes and doubling preserves. -/
def drawLoopFrom (format : GEBufferFormat) (usedBits values i : Nat) : List GLOp :=
  if h : 0 < i ∧ i < values then
    (if usedBits &&& i = 0 then [] else planeOps format i)
      ++ drawLoopFrom format usedBits values (i + i)
  else []
  termination_by values - i
  decreasing_by omega

/-- The candidate plane values the loop visits: i = 1, 2, 4, ... while
i < values. -/
def powersFrom (i values : Nat) : List Nat :=
  if h : 0 < i ∧ i < values then i :: powersFrom (i + i) values else []
  termination_by values - i
  decreasing_by omega

/-- The plane values the draw loop actually draws: the visited candidates with
a set bit in usedBits. -/
def activePlanes (usedBits values : Nat) : List Nat :=
  (powersFrom 1 values).filter (fun p => usedBits &&& p != 0)

/-- The trace of the shader-and-draw tail of NotifyStencilUpload, entered once
usedBits is nonzero.  Mirrors the source line by line: lazy shader
create-or-bind (note that a failed compile only logs and falls through, it
does not return), DirtyLastShader, DisableState, alpha-only color mask,
stencil test and op, the blit-strategy choice, framebuffer bind, viewport,
MakePixelTexture and ForgetLastTexture, stencil clear, always-pass stencil
func, the per-plane draw loop from i = 1, the 0xFF mask restore, the optional
stencil blit, and RebindFramebuffer. -/
def uploadDrawPath (env : GLEnv) (dst : VirtualFramebuffer) (usedBits values : Nat) :
    UploadResult :=
  let shaderOps : List GLOp :=
    if env.hasProgram then [.bindShader]
    else if env.compileOk then [.compileShader true, .bindShader, .uniformTex]
    else [.compileShader false, .errorLogReport, .uniformTex]
  let useBlit : Bool :=
    if dst.bufferWidth = dst.renderWidth ∨ dst.fbo = false then false
    else env.supportsBlit
  let w := if useBlit then dst.bufferWidth else dst.renderWidth
  let h := if useBlit then dst.bufferHeight else dst.renderHeight
  let fbOps : List GLOp :=
    if useBlit then [.bindFramebuffer true]
    else if dst.fbo then [.bindFramebuffer false] else []
  { modified := true
    trace :=
      shaderOps
        ++ [.dirtyLastShader, .disableState, .colorMask false false false true,
            .stencilTestEnable, .stencilOpReplace]
        ++ fbOps
        ++ [.viewport w h, .makePixelTexture, .forgetLastTexture,
            .clearStencil 0, .clearBufs true false, .stencilFuncAlways]
        ++ drawLoopFrom dst.format usedBits values 1
        ++ [.stencilMask 0xFF]
        ++ (if useBlit then [.blit] else [])
        ++ [.rebindFramebuffer] }

/-- FramebufferManagerGLES::NotifyStencilUpload.  The size argument is unused
by the source as well. -/
def NotifyStencilUpload (env : GLEnv) (addr size : Nat) (skipZero : Bool) :
    UploadResult :=
  if env.mayIntersect addr = false then ⟨false, []⟩ else
  match resolveDst env addr with
  | none => ⟨false, []⟩
  | some dst =>
    match env.mem addr with
    | none => ⟨false, []⟩
    | some src =>
      if dst.format = .GE_FORMAT_565 then ⟨false, []⟩ else
      let usedBits := scanUsedBits dst.format src (dst.fb_stride * dst.bufferHeight)
      let values := formatValueCount dst.format
      if usedBits = 0 then
        if skipZero then ⟨false, []⟩
        else ⟨true, [.scissorDisable, .colorMask false false false true,
                     .clearColor 0 0 0 0, .clearStencil 0, .clearBufs true true]⟩
      else uploadDrawPath env dst usedBits values

/-- The sequence of plane values drawn in a trace, in order. -/
def drawsOf (t : List GLOp) : List Nat :=
  t.filterMap fun op => match op with | .draw i => some i | _ => none

/-- The sequence of stencil write masks set in a trace, in order. -/
def masksOf (t : List GLOp) : List Nat :=
  t.filterMap fun op => match op with | .stencilMask m => some m | _ => none

/-- C1: for an upload whose resolved target has a stencil-bearing format and
whose scanned source yields usedBits = 0: with skipZero it returns false and
issues no GL call at all; without skipZero it returns true and issues exactly
the direct-clear sequence (scissor off, alpha-only color write mask, clear
color 0 and stencil 0, clear of the stencil and color planes), never binding
or compiling the reconstruction shader. -/
theorem notifyStencilUpload_allzero (env : GLEnv) (addr size : Nat)
    (dst : VirtualFramebuffer) (src : Nat → Nat)
    (hmay : env.mayIntersect addr = true)
    (hdst : resolveDst env addr = some dst)
    (hmem : env.mem addr = some src)
    (hfmt : dst.format = .GE_FORMAT_5551 ∨ dst.format = .GE_FORMAT_4444 ∨
      dst.format = .GE_FORMAT_8888)
    (hzero : scanUsedBits dst.format src (dst.fb_stride * dst.bufferHeight) = 0) :
    NotifyStencilUpload env addr size true = ⟨false, []⟩
    ∧ NotifyStencilUpload env addr size false =
        ⟨true, [.scissorDisable, .colorMask false false false true,
                .clearColor 0 0 0 0, .clearStencil 0, .clearBufs true true]⟩
    ∧ (∀ b, GLOp.compileShader b ∉ (NotifyStencilUpload env addr size false).trace)
    ∧ GLOp.bindShader ∉ (NotifyStencilUpload env addr size false).trace := by
  have h565 : ¬ dst.format = .GE_FORMAT_565 := by
    rcases hfmt with h | h | h <;> rw [h] <;> intro hc <;> exact GEBufferFormat.noConfusion hc
  refine ⟨?_, ?_, ?_, ?_⟩ <;>
    simp [NotifyStencilUpload, hmay, hdst, hmem, h565, hzero]

/-- C5: on a resolved target of format 565, NotifyStencilUpload returns false
and issues no GL call, whatever the memory at the address holds (the env,
including its memory map, is arbitrary) and whatever skipZero is. -/
theorem notifyStencilUpload_565 (env : GLEnv) (addr size : Nat) (skipZero : Bool)
    (dst : VirtualFramebuffer)
    (hdst : resolveDst env addr = some dst)
    (hfmt : dst.format = .GE_FORMAT_565) :
    NotifyStencilUpload env addr size skipZero = ⟨false, []⟩ := by
  cases hmi : env.mayIntersect addr with
  | false => simp [NotifyStencilUpload, hmi]
  | true =>
    cases hm : env.mem addr with
    | none => simp [NotifyStencilUpload, hmi, hdst, hm]
    | some src => simp [NotifyStencilUpload, hmi, hdst, hm, hfmt]

/-- C7: when the address does not resolve to a tracked render target (it may
not even intersect framebuffer memory), or the memory pointer for it is not
resolvable, NotifyStencilUpload returns false and issues no GL call. -/
theorem notifyStencilUpload_unresolved (env : GLEnv) (addr size : Nat)
    (skipZero : Bool)
    (h : env.mayIntersect addr = false ∨ resolveDst env addr = none ∨
      env.mem addr = none) :
    NotifyStencilUpload env addr size skipZero = ⟨false, []⟩ := by
  rcases h with h | h | h
  · simp [NotifyStencilUpload, h]
  · cases hmi : env.mayIntersect addr with
    | false => simp [NotifyStencilUpload, hmi]
    | true => simp [NotifyStencilUpload, hmi, h]
  · cases hmi : env.mayIntersect addr with
    | false => simp [NotifyStencilUpload, hmi]
    | true =>
      cases hd : resolveDst env addr with
      | none => simp [NotifyStencilUpload, hmi, hd]
      | some dst => simp [NotifyStencilUpload, hmi, hd, h]

/-- C10: on a resolved target of format GE_FORMAT_INVALID the switch sets
nothing, so usedBits stays 0 and values stays 0, and the call behaves exactly
like an all-zero scan: with skipZero it returns false with no GL call, without
it it performs the direct clear of the stencil plane and alpha channel and
returns true. -/
theorem notifyStencilUpload_invalid (env : GLEnv) (addr size : Nat)
    (dst : VirtualFramebuffer) (src : Nat → Nat)
    (hmay : env.mayIntersect addr = true)
    (hdst : resolveDst env addr = some dst)
    (hmem : env.mem addr = some src)
    (hfmt : dst.format = .GE_FORMAT_INVALID) :
    scanUsedBits dst.format src (dst.fb_stride * dst.bufferHeight) = 0
    ∧ formatValueCount dst.format = 0
    ∧ NotifyStencilUpload env addr size true = ⟨false, []⟩
    ∧ NotifyStencilUpload env addr size false =
        ⟨true, [.scissorDisable, .colorMask false false false true,
                .clearColor 0 0 0 0, .clearStencil 0, .clearBufs true true]⟩ := by
  refine ⟨?_, ?_, ?_, ?_⟩ <;>
    simp [NotifyStencilUpload, scanUsedBits, formatValueCount, hmay, hdst, hmem, hfmt]

theorem notifyStencilUpload_eq_drawPath (env : GLEnv) (addr size : Nat)
    (skipZero : Bool) (dst : VirtualFramebuffer) (src : Nat → Nat)
    (hmay : env.mayIntersect addr = true)
    (hdst : resolveDst env addr = some dst)
    (hmem : env.mem addr = some src)
    (h565 : ¬ dst.format = .GE_FORMAT_565)
    (hnz : scanUsedBits dst.format src (dst.fb_stride * dst.bufferHeight) ≠ 0) :
    NotifyStencilUpload env addr size skipZero =
      uploadDrawPath env dst
        (scanUsedBits dst.format src (dst.fb_stride * dst.bufferHeight))
        (formatValueCount dst.format) := by
  simp [NotifyStencilUpload, hmay, hdst, hmem, h565, hnz]

theorem drawLoopFrom_eq (format : GEBufferFormat) (usedBits values : Nat) : ∀ i,
    drawLoopFrom format usedBits values i =
      ((powersFrom i values).filter (fun p => usedBits &&& p != 0)).flatMap
        (planeOps format) := by
  have H : ∀ n i, values - i ≤ n →
      drawLoopFrom format usedBits values i =
        ((powersFrom i values).filter (fun p => usedBits &&& p != 0)).flatMap
          (planeOps format) := by
    intro n
    induction n with
    | zero =>
      intro i hle
      rw [drawLoopFrom, powersFrom]
      have h : ¬ (0 < i ∧ i < values) := by omega
      rw [dif_neg h, dif_neg h]
      simp
    | succ n ih =>
      intro i hle
      rw [drawLoopFrom, powersFrom]
      by_cases h : 0 < i ∧ i < values
      · rw [dif_pos h, dif_pos h, ih (i + i) (by omega), List.filter_cons]
        by_cases hz : usedBits &&& i = 0
        · simp [hz]
        · simp [hz]
      · rw [dif_neg h, dif_neg h]
        simp
  exact fun i => H (values - i) i le_rfl

theorem powersFrom_two : powersFrom 1 2 = [1] := by
  rw [powersFrom, dif_pos (by omega), powersFrom, dif_neg (by omega)]

theorem powersFrom_sixteen : powersFrom 1 16 = [1, 2, 4, 8] := by
  rw [powersFrom, dif_pos (by omega), powersFrom, dif_pos (by omega),
    powersFrom, dif_pos (by omega), powersFrom, dif_pos (by omega),
    powersFrom, dif_neg (by omega)]

theorem powersFrom_256 : powersFrom 1 256 = [1, 2, 4, 8, 16, 32, 64, 128] := by
  rw [powersFrom, dif_pos (by omega), powersFrom, dif_pos (by omega),
    powersFrom, dif_pos (by omega), powersFrom, dif_pos (by omega),
    powersFrom, dif_pos (by omega), powersFrom, dif_pos (by omega),
    powersFrom, dif_pos (by omega), powersFrom, dif_pos (by omega),
    powersFrom, dif_neg (by omega)]

theorem drawsOf_append (t1 t2 : List GLOp) :
    drawsOf (t1 ++ t2) = drawsOf t1 ++ drawsOf t2 :=
  List.filterMap_append t1 t2 _

theorem masksOf_append (t1 t2 : List GLOp) :
    masksOf (t1 ++ t2) = masksOf t1 ++ masksOf t2 :=
  List.filterMap_append t1 t2 _

theorem drawsOf_planeOps_flatMap (format : GEBufferFormat) (l : List Nat) :
    drawsOf (l.flatMap (planeOps format)) = l := by
  induction l with
  | nil => rfl
  | cons x xs ih =>
    rw [List.flatMap_cons, drawsOf_append, ih]
    rw [show drawsOf (planeOps format x) = [x] from rfl]
    rfl

theorem masksOf_planeOps_flatMap (format : GEBufferFormat) (l : List Nat) :
    masksOf (l.flatMap (planeOps format)) = l.map (planeMask format) := by
  induction l with
  | nil => rfl
  | cons x xs ih =>
    rw [List.flatMap_cons, masksOf_append, ih]
    rw [show masksOf (planeOps format x) = [planeMask format x] from rfl]
    rfl

theorem drawsOf_skeleton (shaderOps fbOps blitOps : List GLOp)
    (hs : drawsOf shaderOps = []) (hf : drawsOf fbOps = [])
    (hb : drawsOf blitOps = []) (w h : Nat) (format : GEBufferFormat)
    (usedBits values : Nat) :
    drawsOf (shaderOps
        ++ [.dirtyLastShader, .disableState, .colorMask false false false true,
            .stencilTestEnable, .stencilOpReplace]
        ++ fbOps
        ++ [.viewport w h, .makePixelTexture, .forgetLastTexture,
            .clearStencil 0, .clearBufs true false, .stencilFuncAlways]
        ++ drawLoopFrom format usedBits values 1
        ++ [.stencilMask 0xFF]
        ++ blitOps
        ++ [.rebindFramebuffer]) = activePlanes usedBits values := by
  simp only [drawsOf_append]
  rw [hs, hf, hb, drawLoopFrom_eq, drawsOf_planeOps_flatMap]
  rw [show drawsOf [GLOp.dirtyLastShader, .disableState,
    .colorMask false false false true, .stencilTestEnable, .stencilOpReplace]
    = [] from rfl]
  rw [show drawsOf [GLOp.viewport w h, .makePixelTexture, .forgetLastTexture,
    .clearStencil 0, .clearBufs true false, .stencilFuncAlways] = [] from rfl]
  rw [show drawsOf [GLOp.stencilMask 0xFF] = [] from rfl]
  rw [show drawsOf [GLOp.rebindFramebuffer] = [] from rfl]
  simp [activePlanes]

theorem masksOf_skeleton (shaderOps fbOps blitOps : List GLOp)
    (hs : masksOf shaderOps = []) (hf : masksOf fbOps = [])
    (hb : masksOf blitOps = []) (w h : Nat) (format : GEBufferFormat)
    (usedBits values : Nat) :
    masksOf (shaderOps
        ++ [.dirtyLastShader, .disableState, .colorMask false false false true,
            .stencilTestEnable, .stencilOpReplace]
        ++ fbOps
        ++ [.viewport w h, .makePixelTexture, .forgetLastTexture,
            .clearStencil 0, .clearBufs true false, .stencilFuncAlways]
        ++ drawLoopFrom format usedBits values 1
        ++ [.stencilMask 0xFF]
        ++ blitOps
        ++ [.rebindFramebuffer]) =
      (activePlanes usedBits values).map (planeMask format) ++ [0xFF] := by
  simp only [masksOf_append]
  rw [hs, hf, hb, drawLoopFrom_eq, masksOf_planeOps_flatMap]
  rw [show masksOf [GLOp.dirtyLastShader, .disableState,
    .colorMask false false false true, .stencilTestEnable, .stencilOpReplace]
    = [] from rfl]
  rw [show masksOf [GLOp.viewport w h, .makePixelTexture, .forgetLastTexture,
    .clearStencil 0, .clearBufs true false, .stencilFuncAlways] = [] from rfl]
  rw [show masksOf [GLOp.stencilMask 0xFF] = [0xFF] from rfl]
  rw [show masksOf [GLOp.rebindFramebuffer] = [] from rfl]
  simp [activePlanes]

theorem drawsOf_uploadDrawPath (env : GLEnv) (dst : VirtualFramebuffer)
    (usedBits values : Nat) :
    drawsOf (uploadDrawPath env dst usedBits values).trace =
      activePlanes usedBits values := by
  simp only [uploadDrawPath]
  apply drawsOf_skeleton
  · (repeat' split) <;> rfl
  · (repeat' split) <;> rfl
  · (repeat' split) <;> rfl

theorem masksOf_uploadDrawPath (env : GLEnv) (dst : VirtualFramebuffer)
    (usedBits values : Nat) :
    masksOf (uploadDrawPath env dst usedBits values).trace =
      (activePlanes usedBits values).map (planeMask dst.format) ++ [0xFF] := by
  simp only [uploadDrawPath]
  apply masksOf_skeleton
  · (repeat' split) <;> rfl
  · (repeat' split) <;> rfl
  · (repeat' split) <;> rfl

theorem and_pow_bne (u b : Nat) : (u &&& 2 ^ b != 0) = u.testBit b := by
  apply bool_eq_of_iff
  rw [bne_iff_ne]
  exact and_two_pow_ne_zero u b

theorem activePlanes_spec (u k : Nat) (hk : k ≤ 8)
    (hpow : powersFrom 1 (2 ^ k) = (List.range k).map (2 ^ ·)) :
    activePlanes u (2 ^ k) = ((List.range k).filter (fun b => u.testBit b)).map (2 ^ ·)
    ∧ List.Pairwise (· < ·) (activePlanes u (2 ^ k))
    ∧ (∀ x, x ∈ activePlanes u (2 ^ k) ↔
        ∃ b, x = 2 ^ b ∧ 2 ^ b < 2 ^ k ∧ u.testBit b = true)
    ∧ (activePlanes u (2 ^ k)).length =
        ((List.range 8).filter (fun b => u.testBit b && decide (2 ^ b < 2 ^ k))).length
    ∧ (activePlanes u (2 ^ k)).length ≤ 8 := by
  have hmain : activePlanes u (2 ^ k) =
      ((List.range k).filter (fun b => u.testBit b)).map (2 ^ ·) := by
    rw [activePlanes, hpow, List.filter_map]
    congr 1
    apply List.filter_congr
    intro b _
    exact and_pow_bne u b
  have hpair : List.Pairwise (· < ·) (activePlanes u (2 ^ k)) := by
    rw [hmain]
    apply List.Pairwise.map (2 ^ ·)
      (fun a b hab => (Nat.pow_lt_pow_iff_right (by norm_num)).2 hab)
    exact List.Pairwise.sublist (List.filter_sublist _) (List.sorted_lt_range k)
  have hmem : ∀ x, x ∈ activePlanes u (2 ^ k) ↔
      ∃ b, x = 2 ^ b ∧ 2 ^ b < 2 ^ k ∧ u.testBit b = true := by
    intro x
    rw [hmain]
    simp only [List.mem_map, List.mem_filter, List.mem_range]
    constructor
    · rintro ⟨b, ⟨hb, ht⟩, rfl⟩
      exact ⟨b, rfl, (Nat.pow_lt_pow_iff_right (by norm_num)).2 hb, ht⟩
    · rintro ⟨b, rfl, hb, ht⟩
      exact ⟨b, ⟨(Nat.pow_lt_pow_iff_right (by norm_num)).1 hb, ht⟩, rfl⟩
  have hlen : (activePlanes u (2 ^ k)).length =
      ((List.range 8).filter (fun b => u.testBit b && decide (2 ^ b < 2 ^ k))).length := by
    rw [hmain, List.length_map]
    rw [show (8 : Nat) = k + (8 - k) by omega, List.range_add, List.filter_append,
      List.length_append]
    have h1 : (List.range k).filter (fun b => u.testBit b && decide (2 ^ b < 2 ^ k)) =
        (List.range k).filter (fun b => u.testBit b) := by
      apply List.filter_congr
      intro b hb
      rw [List.mem_range] at hb
      rw [decide_eq_true ((Nat.pow_lt_pow_iff_right (by norm_num)).2 hb), Bool.and_true]
    have h2 : ((List.range (8 - k)).map (k + ·)).filter
        (fun b => u.testBit b && decide (2 ^ b < 2 ^ k)) = [] := by
      rw [List.filter_eq_nil_iff]
      intro b hb
      rw [List.mem_map] at hb
      obtain ⟨c, _, rfl⟩ := hb
      have : ¬ 2 ^ (k + c) < 2 ^ k := by
        have := Nat.pow_le_pow_right (show 0 < 2 by norm_num)
          (show k ≤ k + c by omega)
        omega
      rw [decide_eq_false this, Bool.and_false]
      simp
    rw [h1, h2]
    simp
  have hle : (activePlanes u (2 ^ k)).length ≤ 8 := by
    rw [hmain, List.length_map]
    calc ((List.range k).filter (fun b => u.testBit b)).length
        ≤ (List.range k).length := List.length_filter_le _ _
      _ = k := List.length_range k
      _ ≤ 8 := hk
  exact ⟨hmain, hpair, hmem, hlen, hle⟩

theorem powersFrom_pow_one : powersFrom 1 (2 ^ 1) = (List.range 1).map (2 ^ ·) := by
  rw [show (2 : Nat) ^ 1 = 2 by norm_num, powersFrom_two]
  decide

theorem powersFrom_pow_four : powersFrom 1 (2 ^ 4) = (List.range 4).map (2 ^ ·) := by
  rw [show (2 : Nat) ^ 4 = 16 by norm_num, powersFrom_sixteen]
  decide

theorem powersFrom_pow_eight : powersFrom 1 (2 ^ 8) = (List.range 8).map (2 ^ ·) := by
  rw [show (2 : Nat) ^ 8 = 256 by norm_num, powersFrom_256]
  decide

/-- C8: an upload that reaches the draw loop visits candidate plane values
1, 2, 4, ... strictly below valueCount in increasing order, draws exactly the
candidates whose bit is set in usedBits (skipping the rest), and therefore
issues one draw per set bit of usedBits among representable bit positions —
at most 8 draws. -/
theorem upload_draw_loop_spec (env : GLEnv) (addr size : Nat) (skipZero : Bool)
    (dst : VirtualFramebuffer) (src : Nat → Nat) (u v : Nat) (t : List GLOp)
    (hmay : env.mayIntersect addr = true)
    (hdst : resolveDst env addr = some dst)
    (hmem : env.mem addr = some src)
    (h565 : ¬ dst.format = .GE_FORMAT_565)
    (hu : u = scanUsedBits dst.format src (dst.fb_stride * dst.bufferHeight))
    (hnz : u ≠ 0)
    (hv : v = formatValueCount dst.format)
    (ht : t = (NotifyStencilUpload env addr size skipZero).trace) :
    drawsOf t = activePlanes u v
    ∧ List.Pairwise (· < ·) (drawsOf t)
    ∧ (∀ x, x ∈ drawsOf t ↔ ∃ b, x = 2 ^ b ∧ 2 ^ b < v ∧ u.testBit b = true)
    ∧ (drawsOf t).length =
        ((List.range 8).filter (fun b => u.testBit b && decide (2 ^ b < v))).length
    ∧ (drawsOf t).length ≤ 8 := by
  subst hu hv ht
  rw [notifyStencilUpload_eq_drawPath env addr size skipZero dst src hmay hdst hmem h565
    (by exact hnz)]
  rw [drawsOf_uploadDrawPath]
  cases hf : dst.format with
  | GE_FORMAT_565 => exact absurd hf h565
  | GE_FORMAT_INVALID =>
    rw [hf] at hnz
    simp [scanUsedBits] at hnz
  | GE_FORMAT_5551 =>
    have spec := activePlanes_spec
      (scanUsedBits .GE_FORMAT_5551 src (dst.fb_stride * dst.bufferHeight)) 1
      (by norm_num) powersFrom_pow_one
    simp only [show (2 : Nat) ^ 1 = 2 by norm_num] at spec
    simp only [formatValueCount]
    exact ⟨trivial, spec.2.1, spec.2.2.1, spec.2.2.2.1, spec.2.2.2.2⟩
  | GE_FORMAT_4444 =>
    have spec := activePlanes_spec
      (scanUsedBits .GE_FORMAT_4444 src (dst.fb_stride * dst.bufferHeight)) 4
      (by norm_num) powersFrom_pow_four
    simp only [show (2 : Nat) ^ 4 = 16 by norm_num] at spec
    simp only [formatValueCount]
    exact ⟨trivial, spec.2.1, spec.2.2.1, spec.2.2.2.1, spec.2.2.2.2⟩
  | GE_FORMAT_8888 =>
    have spec := activePlanes_spec
      (scanUsedBits .GE_FORMAT_8888 src (dst.fb_stride * dst.bufferHeight)) 8
      (by norm_num) powersFrom_pow_eight
    simp only [show (2 : Nat) ^ 8 = 256 by norm_num] at spec
    simp only [formatValueCount]
    exact ⟨trivial, spec.2.1, spec.2.2.1, spec.2.2.2.1, spec.2.2.2.2⟩

/-- C9: in an upload that reaches the draw loop, the sequence of stencil write
masks set is exactly one mask per drawn plane, in draw order — the nibble pair
(i <<< 4) ||| i for 4444, the single bit i for 8888, and the full replicated
byte 0xFF for the 1-bit 5551 format — followed by the final restore of the
mask to all-ones 0xFF. -/
theorem upload_stencil_mask_spec (env : GLEnv) (addr size : Nat) (skipZero : Bool)
    (dst : VirtualFramebuffer) (src : Nat → Nat) (u v : Nat) (t : List GLOp)
    (hmay : env.mayIntersect addr = true)
    (hdst : resolveDst env addr = some dst)
    (hmem : env.mem addr = some src)
    (h565 : ¬ dst.format = .GE_FORMAT_565)
    (hu : u = scanUsedBits dst.format src (dst.fb_stride * dst.bufferHeight))
    (hnz : u ≠ 0)
    (hv : v = formatValueCount dst.format)
    (ht : t = (NotifyStencilUpload env addr size skipZero).trace) :
    masksOf t = (drawsOf t).map (planeMask dst.format) ++ [0xFF]
    ∧ (∀ i, planeMask .GE_FORMAT_4444 i = (i <<< 4) ||| i)
    ∧ (∀ i, planeMask .GE_FORMAT_8888 i = i)
    ∧ (∀ i, planeMask .GE_FORMAT_5551 i = 0xFF) := by
  subst hu hv ht
  rw [notifyStencilUpload_eq_drawPath env addr size skipZero dst src hmay hdst hmem h565
    (by exact hnz)]
  rw [masksOf_uploadDrawPath, drawsOf_uploadDrawPath]
  exact ⟨rfl, fun i => rfl, fun i => rfl, fun i => rfl⟩

/-- A one-row, stride-2 render target at address 0 with the given format. -/
def mkVfb (format : GEBufferFormat) : VirtualFramebuffer :=
  { fb_address := 0, fb_stride := 2, bufferHeight := 1, format := format,
    bufferWidth := 2, renderWidth := 2, renderHeight := 1, width := 2, height := 1,
    fbo := true }

/-- An environment tracking just the target above, with every memory word w,
an already-compiled shader, and no blit support. -/
def mkEnv (format : GEBufferFormat) (w : Nat) : GLEnv :=
  { mayIntersect := fun _ => true, maskedEqual := fun a b => a == b,
    vfbs := [mkVfb format], mem := fun _ => some (fun _ => w),
    hasProgram := true, compileOk := true, supportsBlit := false }

theorem notifyStencilUpload_allzero_witness :
    resolveDst (mkEnv .GE_FORMAT_8888 0) 0 = some (mkVfb .GE_FORMAT_8888)
    ∧ scanUsedBits GEBufferFormat.GE_FORMAT_8888 (fun _ => 0) 2 = 0
    ∧ NotifyStencilUpload (mkEnv .GE_FORMAT_8888 0) 0 0 true = ⟨false, []⟩
    ∧ NotifyStencilUpload (mkEnv .GE_FORMAT_8888 0) 0 0 false =
        ⟨true, [.scissorDisable, .colorMask false false false true,
                .clearColor 0 0 0 0, .clearStencil 0, .clearBufs true true]⟩ :=
  ⟨by decide, by decide,
   (notifyStencilUpload_allzero (mkEnv .GE_FORMAT_8888 0) 0 0 (mkVfb .GE_FORMAT_8888)
     (fun _ => 0) rfl (by decide) rfl (Or.inr (Or.inr rfl)) (by decide)).1,
   (notifyStencilUpload_allzero (mkEnv .GE_FORMAT_8888 0) 0 0 (mkVfb .GE_FORMAT_8888)
     (fun _ => 0) rfl (by decide) rfl (Or.inr (Or.inr rfl)) (by decide)).2.1⟩

theorem notifyStencilUpload_565_witness :
    resolveDst (mkEnv .GE_FORMAT_565 0xFFFFFFFF) 0 = some (mkVfb .GE_FORMAT_565)
    ∧ NotifyStencilUpload (mkEnv .GE_FORMAT_565 0xFFFFFFFF) 0 0 false = ⟨false, []⟩ :=
  ⟨by decide,
   notifyStencilUpload_565 (mkEnv .GE_FORMAT_565 0xFFFFFFFF) 0 0 false
     (mkVfb .GE_FORMAT_565) (by decide) rfl⟩

/-- The environment above with an empty target list: nothing to resolve. -/
def envNoTarget : GLEnv :=
  { mkEnv .GE_FORMAT_8888 0 with vfbs := [] }

theorem notifyStencilUpload_unresolved_witness :
    resolveDst envNoTarget 0 = none
    ∧ NotifyStencilUpload envNoTarget 0 0 true = ⟨false, []⟩ :=
  ⟨by decide,
   notifyStencilUpload_unresolved envNoTarget 0 0 true (Or.inr (Or.inl (by decide)))⟩

theorem notifyStencilUpload_invalid_witness :
    resolveDst (mkEnv .GE_FORMAT_INVALID 0x12345678) 0 = some (mkVfb .GE_FORMAT_INVALID)
    ∧ NotifyStencilUpload (mkEnv .GE_FORMAT_INVALID 0x12345678) 0 0 true = ⟨false, []⟩
    ∧ NotifyStencilUpload (mkEnv .GE_FORMAT_INVALID 0x12345678) 0 0 false =
        ⟨true, [.scissorDisable, .colorMask false false false true,
                .clearColor 0 0 0 0, .clearStencil 0, .clearBufs true true]⟩ :=
  ⟨by decide,
   (notifyStencilUpload_invalid (mkEnv .GE_FORMAT_INVALID 0x12345678) 0 0
     (mkVfb .GE_FORMAT_INVALID) (fun _ => 0x12345678) rfl (by decide) rfl rfl).2.2.1,
   (notifyStencilUpload_invalid (mkEnv .GE_FORMAT_INVALID 0x12345678) 0 0
     (mkVfb .GE_FORMAT_INVALID) (fun _ => 0x12345678) rfl (by decide) rfl rfl).2.2.2⟩

theorem upload_draw_loop_spec_witness :
    0x20 = scanUsedBits GEBufferFormat.GE_FORMAT_8888 (fun _ => 0x20000000) 2
    ∧ drawsOf ((NotifyStencilUpload (mkEnv .GE_FORMAT_8888 0x20000000) 0 0 true).trace)
        = activePlanes 0x20 256
    ∧ (drawsOf ((NotifyStencilUpload (mkEnv .GE_FORMAT_8888 0x20000000) 0 0 true).trace)).length
        = ((List.range 8).filter (fun b => (0x20 : Nat).testBit b && decide (2 ^ b < 256))).length
    ∧ (drawsOf ((NotifyStencilUpload (mkEnv .GE_FORMAT_8888 0x20000000) 0 0 true).trace)).length
        ≤ 8 :=
  ⟨by decide,
   (upload_draw_loop_spec (mkEnv .GE_FORMAT_8888 0x20000000) 0 0 true
     (mkVfb .GE_FORMAT_8888) (fun _ => 0x20000000) 0x20 256 _
     rfl (by decide) rfl (by decide) (by decide) (by decide) (by decide) rfl).1,
   (upload_draw_loop_spec (mkEnv .GE_FORMAT_8888 0x20000000) 0 0 true
     (mkVfb .GE_FORMAT_8888) (fun _ => 0x20000000) 0x20 256 _
     rfl (by decide) rfl (by decide) (by decide) (by decide) (by decide) rfl).2.2.2.1,
   (upload_draw_loop_spec (mkEnv .GE_FORMAT_8888 0x20000000) 0 0 true
     (mkVfb .GE_FORMAT_8888) (fun _ => 0x20000000) 0x20 256 _
     rfl (by decide) rfl (by decide) (by decide) (by decide) (by decide) rfl).2.2.2.2⟩

theorem upload_stencil_mask_spec_witness :
    0x20 = scanUsedBits GEBufferFormat.GE_FORMAT_8888 (fun _ => 0x20000000) 2
    ∧ masksOf ((NotifyStencilUpload (mkEnv .GE_FORMAT_8888 0x20000000) 0 0 true).trace)
        = (drawsOf ((NotifyStencilUpload (mkEnv .GE_FORMAT_8888 0x20000000) 0 0 true).trace)).map
            (planeMask (mkVfb .GE_FORMAT_8888).format) ++ [0xFF] :=
  ⟨by decide,
   (upload_stencil_mask_spec (mkEnv .GE_FORMAT_8888 0x20000000) 0 0 true
     (mkVfb .GE_FORMAT_8888) (fun _ => 0x20000000) 0x20 256 _
     rfl (by decide) rfl (by decide) (by decide) (by decide) (by decide) rfl).1⟩

/-- The draw-loop environment with no compiled shader and a failing compile:
source word 0x20000000 on an 8888 target gives usedBits 0x20. -/
def envCompileFail : GLEnv :=
  { mkEnv .GE_FORMAT_8888 0x20000000 with hasProgram := false, compileOk := false }

/-- C6: when the reconstruction shader fails to compile, NotifyStencilUpload
logs the reportable diagnostic but does NOT stop: it still queries the uniform
of the null program, sets up GPU state, issues the bit-plane draws and returns
true.  This contradicts the spec, which says the call (and later ones)
degrades to a no-op until the shader is created; upstream later added a
return-false on this path, so the missing early-out is a slip in this code. -/
theorem upload_compile_fail_still_draws :
    (NotifyStencilUpload envCompileFail 0 0 true).modified = true
    ∧ GLOp.compileShader false ∈ (NotifyStencilUpload envCompileFail 0 0 true).trace
    ∧ GLOp.errorLogReport ∈ (NotifyStencilUpload envCompileFail 0 0 true).trace
    ∧ GLOp.uniformTex ∈ (NotifyStencilUpload envCompileFail 0 0 true).trace
    ∧ drawsOf (NotifyStencilUpload envCompileFail 0 0 true).trace = [32]
    ∧ GLOp.bindShader ∉ (NotifyStencilUpload envCompileFail 0 0 true).trace := by
  have key := notifyStencilUpload_eq_drawPath envCompileFail 0 0 true
    (mkVfb .GE_FORMAT_8888) (fun _ => 0x20000000) rfl (by decide) rfl
    (by decide) (by decide)
  rw [key]
  have hu : scanUsedBits (mkVfb .GE_FORMAT_8888).format (fun _ => 0x20000000)
      ((mkVfb .GE_FORMAT_8888).fb_stride * (mkVfb .GE_FORMAT_8888).bufferHeight)
      = 0x20 := by decide
  have hv : formatValueCount (mkVfb .GE_FORMAT_8888).format = 256 := by decide
  rw [hu, hv]
  simp only [uploadDrawPath, drawLoopFrom_eq, powersFrom_256]
  decide
